import Mathlib

/-!
Verification of the chinese-tutor repository core against its specification.

Shallow embedding conventions:
* Python floats are modelled as rationals (`ℚ`).
* `datetime` values are modelled as integer timestamps (`Int`); timezone
  normalisation (`replace(tzinfo=...)`) is the identity in this model.
* The external py-fsrs library (`fsrs.Scheduler`, `fsrs.Card`) is an opaque
  collaborator; it is modelled by an environment record `FsrsEnv` of
  uninterpreted functions, exactly mirroring the operations the repository
  calls (`review_card`, `get_card_retrievability`, fresh `Card()`).
* Python exceptions that the specification declares caller-visible are
  modelled with `Except String`; `random.choice` / `random.shuffle` are
  modelled by an explicit randomness record whose shuffle components are
  constrained to be permutations in the theorems.
-/

namespace ChineseTutor

/-! ### src/bkt.py — Bayesian Knowledge Tracing arithmetic

`update_mastery` (BKT branch) with the literal fallback defaults
`p_transit=0.3`, `p_slip=0.1`, `p_guess=0.2` used when the record's
calibration fields are `None`. -/

/-- Fallback transition probability from src/bkt.py. -/
def defaultPTransit : ℚ := 3 / 10

/-- Fallback slip probability from src/bkt.py. -/
def defaultPSlip : ℚ := 1 / 10

/-- Fallback guess probability from src/bkt.py. -/
def defaultPGuess : ℚ := 1 / 5

/-- The Bayesian evidence step of `update_mastery`: posterior probability of
knowing the skill given the observed correctness, with the source's
denominator-zero fallback (`p_l_given_obs = p_l` when the denominator is not
positive). -/
def bktObserve (p s g : ℚ) (correct : Bool) : ℚ :=
  if correct then
    if 0 < p * (1 - s) + (1 - p) * g then
      p * (1 - s) / (p * (1 - s) + (1 - p) * g)
    else p
  else
    if 0 < p * s + (1 - p) * (1 - g) then
      p * s / (p * s + (1 - p) * (1 - g))
    else p

/-- One full BKT update from `update_mastery`: evidence step followed by the
learning transition `p_l_new = p_l_given_obs + (1 - p_l_given_obs) * p_t`. -/
def bktUpdate (p t s g : ℚ) (correct : Bool) : ℚ :=
  bktObserve p s g correct + (1 - bktObserve p s g correct) * t

/-- Iterating the BKT update over a sequence of observed outcomes. -/
def bktIterate (t s g p : ℚ) : List Bool → ℚ
  | [] => p
  | c :: cs => bktIterate t s g (bktUpdate p t s g c) cs

theorem bktObserve_mem_unit {p s g : ℚ} (c : Bool)
    (hp0 : 0 ≤ p) (hp1 : p ≤ 1) (hs0 : 0 ≤ s) (hs1 : s ≤ 1)
    (hg0 : 0 ≤ g) (hg1 : g ≤ 1) :
    0 ≤ bktObserve p s g c ∧ bktObserve p s g c ≤ 1 := by
  have key : ∀ num den : ℚ, 0 ≤ num → num ≤ den →
      0 ≤ (if 0 < den then num / den else p) ∧
        (if 0 < den then num / den else p) ≤ 1 := by
    intro num den h0 h1
    split
    · rename_i hden
      exact ⟨div_nonneg h0 hden.le, (div_le_one hden).2 h1⟩
    · exact ⟨hp0, hp1⟩
  cases c
  · exact key (p * s) (p * s + (1 - p) * (1 - g)) (by nlinarith) (by nlinarith)
  · exact key (p * (1 - s)) (p * (1 - s) + (1 - p) * g) (by nlinarith)
      (by nlinarith)

theorem bktUpdate_mem_unit {p t s g : ℚ} (c : Bool)
    (hp0 : 0 ≤ p) (hp1 : p ≤ 1) (ht0 : 0 ≤ t) (ht1 : t ≤ 1)
    (hs0 : 0 ≤ s) (hs1 : s ≤ 1) (hg0 : 0 ≤ g) (hg1 : g ≤ 1) :
    0 ≤ bktUpdate p t s g c ∧ bktUpdate p t s g c ≤ 1 := by
  obtain ⟨ho0, ho1⟩ := bktObserve_mem_unit (p := p) (s := s) (g := g) c
    hp0 hp1 hs0 hs1 hg0 hg1
  unfold bktUpdate
  constructor
  · nlinarith
  · nlinarith

theorem bktIterate_mem_unit {t s g : ℚ}
    (ht0 : 0 ≤ t) (ht1 : t ≤ 1) (hs0 : 0 ≤ s) (hs1 : s ≤ 1)
    (hg0 : 0 ≤ g) (hg1 : g ≤ 1) :
    ∀ (obs : List Bool) (p : ℚ), 0 ≤ p → p ≤ 1 →
      0 ≤ bktIterate t s g p obs ∧ bktIterate t s g p obs ≤ 1 := by
  intro obs
  induction obs with
  | nil => intro p hp0 hp1; exact ⟨hp0, hp1⟩
  | cons c cs ih =>
    intro p hp0 hp1
    obtain ⟨h0, h1⟩ := bktUpdate_mem_unit (p := p) (t := t) (s := s) (g := g) c
      hp0 hp1 ht0 ht1 hs0 hs1 hg0 hg1
    exact ih (bktUpdate p t s g c) h0 h1

/-- Claim C8: for BKT parameters `p, t, s, g` each in `[0,1]`, the value
produced by the BKT update of `update_mastery` (either correctness branch,
including the denominator-zero fallback and the learning-transition step)
lies in `[0,1]`, and iterating the update any number of times keeps the
knowledge-probability estimate in `[0,1]`. -/
theorem bkt_update_stays_in_unit_interval (p t s g : ℚ)
    (hp0 : 0 ≤ p) (hp1 : p ≤ 1) (ht0 : 0 ≤ t) (ht1 : t ≤ 1)
    (hs0 : 0 ≤ s) (hs1 : s ≤ 1) (hg0 : 0 ≤ g) (hg1 : g ≤ 1) :
    (∀ c : Bool, 0 ≤ bktUpdate p t s g c ∧ bktUpdate p t s g c ≤ 1) ∧
    (∀ obs : List Bool,
      0 ≤ bktIterate t s g p obs ∧ bktIterate t s g p obs ≤ 1) :=
  ⟨fun c => bktUpdate_mem_unit c hp0 hp1 ht0 ht1 hs0 hs1 hg0 hg1,
   fun obs => bktIterate_mem_unit ht0 ht1 hs0 hs1 hg0 hg1 obs p hp0 hp1⟩

/-- Witness for C8 at concrete inputs. -/
theorem bkt_update_stays_in_unit_interval_witness :
    0 ≤ bktUpdate (1/2) (3/10) (1/10) (1/5) true ∧
      bktUpdate (1/2) (3/10) (1/10) (1/5) true ≤ 1 :=
  (bkt_update_stays_in_unit_interval (1/2) (3/10) (1/10) (1/5)
    (by norm_num) (by norm_num) (by norm_num) (by norm_num)
    (by norm_num) (by norm_num) (by norm_num) (by norm_num)).1 true

theorem bktIterate_replicate_succ (t s g p : ℚ) (c : Bool) :
    ∀ n : ℕ, bktIterate t s g p (List.replicate (n + 1) c) =
      bktUpdate (bktIterate t s g p (List.replicate n c)) t s g c := by
  intro n
  induction n generalizing p with
  | zero => rfl
  | succ m ih =>
    show bktIterate t s g (bktUpdate p t s g c) (List.replicate (m + 1) c) = _
    rw [ih (bktUpdate p t s g c)]
    rfl

theorem bktUpdate_correct_default_ge {p : ℚ} (hp0 : 0 ≤ p) (hp1 : p ≤ 1) :
    p ≤ bktUpdate p (3/10) (1/10) (1/5) true := by
  have hobs : p ≤ bktObserve p (1/10) (1/5) true := by
    have hden : 0 < p * (1 - 1/10) + (1 - p) * (1/5 : ℚ) := by nlinarith
    show p ≤ if 0 < p * (1 - 1/10) + (1 - p) * (1/5 : ℚ) then
      p * (1 - 1/10) / (p * (1 - 1/10) + (1 - p) * (1/5)) else p
    rw [if_pos hden, le_div_iff₀ hden]
    nlinarith
  obtain ⟨ho0, ho1⟩ := bktObserve_mem_unit (p := p) (s := 1/10) (g := 1/5) true
    hp0 hp1 (by norm_num) (by norm_num) (by norm_num) (by norm_num)
  unfold bktUpdate
  nlinarith

/-- Claim C9: starting from a fresh learning-mode record (any initial
knowledge probability in `[0,1]`, in particular the fresh default `0`) with
the default calibration probabilities of src/bkt.py (`t=0.3`, `s=0.1`,
`g=0.2`), applying the BKT update with a correct observation repeatedly
yields a monotonically non-decreasing sequence of knowledge-probability
estimates. -/
theorem bkt_repeated_correct_monotone (p : ℚ) (hp0 : 0 ≤ p) (hp1 : p ≤ 1)
    (n : ℕ) :
    bktIterate (3/10) (1/10) (1/5) p (List.replicate n true) ≤
      bktIterate (3/10) (1/10) (1/5) p (List.replicate (n + 1) true) := by
  rw [bktIterate_replicate_succ]
  obtain ⟨h0, h1⟩ := bktIterate_mem_unit (t := 3/10) (s := 1/10) (g := 1/5)
    (by norm_num) (by norm_num) (by norm_num) (by norm_num)
    (by norm_num) (by norm_num) (List.replicate n true) p hp0 hp1
  exact bktUpdate_correct_default_ge h0 h1

/-- Witness for C9 at concrete inputs. -/
theorem bkt_repeated_correct_monotone_witness :
    bktIterate (3/10) (1/10) (1/5) 0 (List.replicate 1 true) ≤
      bktIterate (3/10) (1/10) (1/5) 0 (List.replicate 2 true) :=
  bkt_repeated_correct_monotone 0 (by norm_num) (by norm_num) 1

/-! ### The external py-fsrs collaborator

`fsrs.Card` state is stored by the repository as `FSRSState` (src/models.py);
`to_card` / `from_fsrs_card` are field-wise copies whose only effect is
timezone normalisation, which is the identity once datetimes are integer
timestamps, so the external scheduler operates directly on `FSRSState` here.
The external scheduler itself (`review_card`, `get_card_retrievability`) and
the fresh `fsrs.Card()` are opaque: they are parameters in `FsrsEnv`. -/

/-- py-fsrs `Rating` (Again / Hard / Good / Easy). -/
inductive Rating
  | again
  | hard
  | good
  | easy
deriving DecidableEq

/-- src/models.py `FSRSState`: the stored py-fsrs card state
(the `state` field is the py-fsrs state enum value: 0=New, 1=Learning,
2=Review, 3=Relearning). -/
structure FSRSState where
  stability : Option ℚ
  difficulty : Option ℚ
  due : Option Int
  last_review : Option Int
  state : Nat
  step : Option Nat
deriving DecidableEq

/-- The opaque external spaced-repetition calculator (py-fsrs scheduler). -/
structure FsrsEnv where
  reviewCard : FSRSState → Rating → FSRSState
  getCardRetrievability : FSRSState → Option ℚ
  freshCard : FSRSState

/-! ### src/models.py — current-revision `StudentMastery` (all-FSRS) -/

/-- src/models.py `StudentMastery` (current revision: composite table/row
key, FSRS state only). -/
structure StudentMastery where
  table_id : String
  row_id : String
  fsrs_state : Option FSRSState
  /-- Modelled from the spec: scheduler.py and menu.py read an `is_mastered`
  property on mastery records that no file under src/ defines (the revision
  of models.py defining it is absent from src/). Spec section 4.1: a record
  is mastered when it is in retention mode or its knowledge probability
  reached the mastery threshold. The judgement is carried as an abstract
  boolean field, false for freshly created records; none of the embedded
  current-revision operations change it (FSRS initialisation is performed
  for every new item and is decoupled from mastery in this revision). -/
  is_mastered : Bool
deriving DecidableEq

/-- src/models.py `StudentMastery.due_date`. -/
def StudentMastery.due_date (m : StudentMastery) : Option Int :=
  match m.fsrs_state with
  | none => none
  | some st => st.due

/-- src/models.py `StudentMastery.is_due` (at integer timestamp `now`). -/
def StudentMastery.is_due (m : StudentMastery) (now : Int) : Bool :=
  match m.due_date with
  | none => false
  | some d => decide (d ≤ now)

/-- src/models.py `StudentMastery.retrievability`. -/
def StudentMastery.retrievability (env : FsrsEnv) (m : StudentMastery) :
    Option ℚ :=
  match m.fsrs_state with
  | none => none
  | some st => env.getCardRetrievability st

/-- src/models.py `StudentMastery.initialize_fsrs`: fresh card reviewed once
to establish a baseline, result stored. -/
def StudentMastery.initialize_fsrs (m : StudentMastery) (env : FsrsEnv)
    (rating : Rating) : StudentMastery :=
  { m with fsrs_state := some (env.reviewCard env.freshCard rating) }

/-- src/models.py `StudentMastery.process_review`: unconditionally calls
`initialize_fsrs(rating)` (so the stored state is re-seeded from a fresh
card), then reviews the stored card once more with the same rating. -/
def StudentMastery.process_review (m : StudentMastery) (env : FsrsEnv)
    (rating : Rating) : StudentMastery :=
  match (m.initialize_fsrs env rating).fsrs_state with
  | some st =>
      { m.initialize_fsrs env rating with
          fsrs_state := some (env.reviewCard st rating) }
  | none => m.initialize_fsrs env rating

/-! ### src/fsrs_scheduler.py and src/bkt.py — earlier-revision records

bkt.py, fsrs_scheduler.py, main.py and the tests address a `StudentMastery`
revision keyed by `knowledge_point_id` with a `scheduling_mode` discriminant
and BKT calibration fields (`SchedulingMode` is imported from models by both
modules but the current models.py no longer defines it). That record is
embedded here as `BktStudentMastery`. -/

/-- `SchedulingMode` as used by src/bkt.py and src/fsrs_scheduler.py. -/
inductive SchedulingMode
  | bkt
  | fsrs
deriving DecidableEq

/-- The earlier-revision `StudentMastery` addressed by src/bkt.py and
src/fsrs_scheduler.py: BKT calibration fields plus optional FSRS state. -/
structure BktStudentMastery where
  knowledge_point_id : String
  scheduling_mode : SchedulingMode
  p_known : Option ℚ
  p_transit : Option ℚ
  p_slip : Option ℚ
  p_guess : Option ℚ
  fsrs_state : Option FSRSState
  transitioned_to_fsrs_at : Option Int
deriving DecidableEq

/-- src/fsrs_scheduler.py `initialize_fsrs_for_mastery`: seed a fresh card
with one Good review, switch the mode to FSRS, stamp the transition time. -/
def initialize_fsrs_for_mastery (env : FsrsEnv) (now : Int)
    (m : BktStudentMastery) : BktStudentMastery :=
  { m with
      fsrs_state := some (env.reviewCard env.freshCard Rating.good),
      scheduling_mode := SchedulingMode.fsrs,
      transitioned_to_fsrs_at := some now }

/-- src/fsrs_scheduler.py `process_fsrs_review`: raises `ValueError` when
no FSRS state exists, otherwise reviews with Good (correct) or Again
(incorrect). -/
def process_fsrs_review (env : FsrsEnv) (m : BktStudentMastery)
    (correct : Bool) : Except String BktStudentMastery :=
  match m.fsrs_state with
  | none => Except.error "Cannot process FSRS review without FSRS state"
  | some st =>
      Except.ok { m with
        fsrs_state :=
          some (env.reviewCard st
            (if correct then Rating.good else Rating.again)) }

/-- src/fsrs_scheduler.py `get_fsrs_due_date`. -/
def get_fsrs_due_date (m : BktStudentMastery) : Option Int :=
  if m.scheduling_mode = SchedulingMode.fsrs then
    match m.fsrs_state with
    | none => none
    | some st => st.due
  else none

/-- src/fsrs_scheduler.py `get_fsrs_retrievability`. -/
def get_fsrs_retrievability (env : FsrsEnv) (m : BktStudentMastery) :
    Option ℚ :=
  if m.scheduling_mode = SchedulingMode.fsrs then
    match m.fsrs_state with
    | none => none
    | some st => env.getCardRetrievability st
  else none

/-- src/fsrs_scheduler.py `is_fsrs_due` (at integer timestamp `now`). -/
def is_fsrs_due (m : BktStudentMastery) (now : Int) : Bool :=
  match get_fsrs_due_date m with
  | none => false
  | some d => decide (d ≤ now)

/-- src/bkt.py `update_mastery`: FSRS mode delegates to the FSRS review and
returns retrievability (1.0 when missing); BKT mode raises `ValueError`
when `p_known` is `None`, otherwise applies the BKT update with the
fallback calibration defaults. -/
def update_mastery (env : FsrsEnv) (m : BktStudentMastery) (correct : Bool) :
    Except String (ℚ × BktStudentMastery) :=
  if m.scheduling_mode = SchedulingMode.fsrs then
    match process_fsrs_review env m correct with
    | Except.error e => Except.error e
    | Except.ok m1 =>
        Except.ok ((get_fsrs_retrievability env m1).getD 1, m1)
  else
    match m.p_known with
    | none =>
        Except.error "Cannot update BKT without BKT state (p_known is None)"
    | some pL =>
        let pT := m.p_transit.getD defaultPTransit
        let pS := m.p_slip.getD defaultPSlip
        let pG := m.p_guess.getD defaultPGuess
        let pNew := bktUpdate pL pT pS pG correct
        Except.ok (pNew, { m with p_known := some pNew })

/-- An operation of the earlier-revision mastery API; a raised `ValueError`
leaves the record unchanged (both raising functions raise before any
mutation). -/
inductive MasteryOp
  | transition (now : Int)
  | fsrsReview (correct : Bool)
  | update (correct : Bool)
deriving DecidableEq

/-- Apply one earlier-revision mastery operation to a record. -/
def applyMasteryOp (env : FsrsEnv) (m : BktStudentMastery) :
    MasteryOp → BktStudentMastery
  | MasteryOp.transition now => initialize_fsrs_for_mastery env now m
  | MasteryOp.fsrsReview c =>
      match process_fsrs_review env m c with
      | Except.ok m1 => m1
      | Except.error _ => m
  | MasteryOp.update c =>
      match update_mastery env m c with
      | Except.ok (_, m1) => m1
      | Except.error _ => m

/-- Apply a sequence of earlier-revision mastery operations. -/
def applyMasteryOps (env : FsrsEnv) (ops : List MasteryOp)
    (m : BktStudentMastery) : BktStudentMastery :=
  ops.foldl (applyMasteryOp env) m

/-! ### Claims C2, C3, C4 -/

/-- A record with no FSRS state (hence no due date), used as concrete input. -/
def masteryNoState : StudentMastery :=
  { table_id := "knowledge_points", row_id := "v001",
    fsrs_state := none, is_mastered := false }

/-- A fresh card as stored state for concrete inputs. -/
def cardBlank : FSRSState :=
  { stability := none, difficulty := none, due := none,
    last_review := none, state := 1, step := some 0 }

/-- A trivial concrete FSRS environment for witnesses. -/
def envTrivial : FsrsEnv :=
  { reviewCard := fun c _ => c,
    getCardRetrievability := fun _ => none,
    freshCard := cardBlank }

/-- Claim C2 counterexample: a mastery record whose due timestamp is unset
is reported as NOT due by `StudentMastery.is_due` (and likewise by
`is_fsrs_due`), whereas the claim says a record with no due date is treated
as due. -/
theorem is_due_unset_counterexample :
    masteryNoState.due_date = none ∧
      masteryNoState.is_due 100 = false ∧
      is_fsrs_due
        { knowledge_point_id := "v001",
          scheduling_mode := SchedulingMode.fsrs,
          p_known := none, p_transit := none, p_slip := none,
          p_guess := none, fsrs_state := none,
          transitioned_to_fsrs_at := none } 100 = false :=
  ⟨rfl, rfl, rfl⟩

/-- Claim C2 (amended): the due check returns true iff the due timestamp is
set and has passed; a record with an unset due timestamp is treated as NOT
due, in `StudentMastery.is_due` and `is_fsrs_due` alike. -/
theorem is_due_iff_set_and_passed :
    (∀ (m : StudentMastery) (now : Int),
        m.is_due now = true ↔ ∃ d, m.due_date = some d ∧ d ≤ now) ∧
    (∀ (m : BktStudentMastery) (now : Int),
        is_fsrs_due m now = true ↔
          ∃ d, get_fsrs_due_date m = some d ∧ d ≤ now) := by
  constructor
  · intro m now
    cases h : m.due_date with
    | none => simp [StudentMastery.is_due, h]
    | some d => simp [StudentMastery.is_due, h]
  · intro m now
    cases h : get_fsrs_due_date m with
    | none => simp [is_fsrs_due, h]
    | some d => simp [is_fsrs_due, h]

/-- Claim C3: `update_mastery` in BKT mode with `p_known = None` and
`process_fsrs_review` with no FSRS state each raise a caller-visible
`ValueError`; but the current-revision `StudentMastery.process_review`
returns normally on an uninitialised record, silently re-seeding its state
from a fresh card (this is the code-bug side of the claim). -/
theorem invalid_state_update_errors :
    (∀ (env : FsrsEnv) (m : BktStudentMastery) (c : Bool),
        m.scheduling_mode = SchedulingMode.bkt → m.p_known = none →
        update_mastery env m c =
          Except.error
            "Cannot update BKT without BKT state (p_known is None)") ∧
    (∀ (env : FsrsEnv) (m : BktStudentMastery) (c : Bool),
        m.fsrs_state = none →
        process_fsrs_review env m c =
          Except.error "Cannot process FSRS review without FSRS state") ∧
    (∀ (env : FsrsEnv) (r : Rating) (m : StudentMastery),
        (m.process_review env r).fsrs_state =
          some (env.reviewCard (env.reviewCard env.freshCard r) r)) := by
  refine ⟨?_, ?_, ?_⟩
  · intro env m c hmode hp
    rw [update_mastery, if_neg (by rw [hmode]; exact fun h => nomatch h), hp]
  · intro env m c hst
    rw [process_fsrs_review, hst]
  · intro env r m
    rfl

/-- Witness for C3 at concrete inputs. -/
theorem invalid_state_update_errors_witness :
    update_mastery envTrivial
        { knowledge_point_id := "v001",
          scheduling_mode := SchedulingMode.bkt,
          p_known := none, p_transit := none, p_slip := none,
          p_guess := none, fsrs_state := none,
          transitioned_to_fsrs_at := none } true =
      Except.error "Cannot update BKT without BKT state (p_known is None)" :=
  invalid_state_update_errors.1 envTrivial
    { knowledge_point_id := "v001",
      scheduling_mode := SchedulingMode.bkt,
      p_known := none, p_transit := none, p_slip := none,
      p_guess := none, fsrs_state := none,
      transitioned_to_fsrs_at := none } true rfl rfl

theorem applyMasteryOp_keeps_fsrs (env : FsrsEnv) (m : BktStudentMastery)
    (op : MasteryOp) (h : m.scheduling_mode = SchedulingMode.fsrs) :
    (applyMasteryOp env m op).scheduling_mode = SchedulingMode.fsrs := by
  cases op with
  | transition now => rfl
  | fsrsReview c =>
    rw [applyMasteryOp, process_fsrs_review]
    cases m.fsrs_state with
    | none => exact h
    | some st => exact h
  | update c =>
    rw [applyMasteryOp, update_mastery, if_pos h, process_fsrs_review]
    cases m.fsrs_state with
    | none => exact h
    | some st => exact h

/-- Claim C4: in the earlier-revision API the scheduling mode only ever
moves to FSRS (retention) — only the initialize operation changes the mode,
and once in FSRS mode any sequence of operations leaves it in FSRS mode.
However the current-revision `StudentMastery.process_review` re-seeds the
memory-model state from scratch on every call: its resulting state is
independent of the record's prior state (the code-bug side of the claim). -/
theorem retention_mode_never_reverts :
    (∀ (env : FsrsEnv) (ops : List MasteryOp) (m : BktStudentMastery),
        m.scheduling_mode = SchedulingMode.fsrs →
        (applyMasteryOps env ops m).scheduling_mode = SchedulingMode.fsrs) ∧
    (∀ (env : FsrsEnv) (op : MasteryOp) (m : BktStudentMastery),
        (∀ now, op ≠ MasteryOp.transition now) →
        (applyMasteryOp env m op).scheduling_mode = m.scheduling_mode) ∧
    (∀ (env : FsrsEnv) (r : Rating) (m m' : StudentMastery),
        (m.process_review env r).fsrs_state =
          (m'.process_review env r).fsrs_state) := by
  refine ⟨?_, ?_, ?_⟩
  · intro env ops
    induction ops with
    | nil => intro m h; exact h
    | cons op rest ih =>
      intro m h
      exact ih (applyMasteryOp env m op) (applyMasteryOp_keeps_fsrs env m op h)
  · intro env op m hop
    cases op with
    | transition now => exact absurd rfl (hop now)
    | fsrsReview c =>
      rw [applyMasteryOp, process_fsrs_review]
      cases m.fsrs_state with
      | none => rfl
      | some st => rfl
    | update c =>
      rw [applyMasteryOp, update_mastery]
      by_cases h : m.scheduling_mode = SchedulingMode.fsrs
      · rw [if_pos h, process_fsrs_review]
        cases m.fsrs_state with
        | none => rfl
        | some st => rw [h]
      · rw [if_neg h]
        cases m.p_known with
        | none => rfl
        | some pL => rfl
  · intro env r m m'
    rfl

/-- Witness for C4 at concrete inputs. -/
theorem retention_mode_never_reverts_witness :
    (applyMasteryOps envTrivial
        [MasteryOp.fsrsReview true, MasteryOp.update false]
        { knowledge_point_id := "v001",
          scheduling_mode := SchedulingMode.fsrs,
          p_known := none, p_transit := none, p_slip := none,
          p_guess := none, fsrs_state := some cardBlank,
          transitioned_to_fsrs_at := some 0 }).scheduling_mode =
      SchedulingMode.fsrs ∧
    (applyMasteryOp envTrivial
        { knowledge_point_id := "v001",
          scheduling_mode := SchedulingMode.bkt,
          p_known := some (1/2), p_transit := none, p_slip := none,
          p_guess := none, fsrs_state := none,
          transitioned_to_fsrs_at := none }
        (MasteryOp.update true)).scheduling_mode = SchedulingMode.bkt :=
  ⟨retention_mode_never_reverts.1 envTrivial
      [MasteryOp.fsrsReview true, MasteryOp.update false]
      { knowledge_point_id := "v001",
        scheduling_mode := SchedulingMode.fsrs,
        p_known := none, p_transit := none, p_slip := none,
        p_guess := none, fsrs_state := some cardBlank,
        transitioned_to_fsrs_at := some 0 } rfl,
   retention_mode_never_reverts.2.1 envTrivial (MasteryOp.update true)
      { knowledge_point_id := "v001",
        scheduling_mode := SchedulingMode.bkt,
        p_known := some (1/2), p_transit := none, p_slip := none,
        p_guess := none, fsrs_state := none,
        transitioned_to_fsrs_at := none }
      (fun _ h => nomatch h)⟩

/-! ### src/scheduler.py — ExerciseScheduler

The scheduler mutates mastery records through the student state's
`masteries` dict; state passing is explicit here. The `knowledge_points`
dict built from the constructor's list argument is modelled with Python
dict semantics: iteration follows first-occurrence order of ids and a
duplicated id keeps the last value. -/

/-- src/models.py `KnowledgePointType`. -/
inductive KnowledgePointType
  | vocabulary
  | grammar
deriving DecidableEq

/-- src/models.py `KnowledgePoint`. The `prerequisites` field is read by
scheduler.py and menu.py; the current models.py revision omits it (spec
section 3: an ordered list of prerequisite item IDs). -/
structure KnowledgePoint where
  id : String
  type : KnowledgePointType
  chinese : String
  pinyin : String
  english : String
  tags : List String
  prerequisites : List String
deriving DecidableEq

/-- src/models.py `StudentState.DEFAULT_TABLE_ID`. -/
def defaultTableId : String := "knowledge_points"

/-- src/models.py `StudentState._make_key`. -/
def makeKey (tableId rowId : String) : String := tableId ++ ":" ++ rowId

/-- The masteries dict of src/models.py `StudentState`, as an insertion-order
association list. -/
structure StudentState where
  masteries : List (String × StudentMastery)
deriving DecidableEq

/-- Dict lookup in the masteries association list. -/
def lookupEntry : List (String × StudentMastery) → String → Option StudentMastery
  | [], _ => none
  | kv :: rest, key => if kv.1 = key then some kv.2 else lookupEntry rest key

/-- Replace the value stored at a key (models sharing of the mutated Python
record through the dict). -/
def setEntry : List (String × StudentMastery) → String → StudentMastery →
    List (String × StudentMastery)
  | [], _, _ => []
  | kv :: rest, key, m =>
      if kv.1 = key then (key, m) :: setEntry rest key m
      else kv :: setEntry rest key m

/-- src/models.py `StudentState.get_mastery` with the default table id:
return the stored record, or create (and insert) a blank one. -/
def StudentState.get_mastery (s : StudentState) (rowId : String) :
    StudentMastery × StudentState :=
  let key := makeKey defaultTableId rowId
  match lookupEntry s.masteries key with
  | some m => (m, s)
  | none =>
      let m : StudentMastery :=
        { table_id := defaultTableId, row_id := rowId,
          fsrs_state := none, is_mastered := false }
      (m, ⟨s.masteries ++ [(key, m)]⟩)

/-- Write back a mutated mastery record under its key. -/
def StudentState.setMastery (s : StudentState) (key : String)
    (m : StudentMastery) : StudentState :=
  ⟨setEntry s.masteries key m⟩

/-- Iteration order of the scheduler's `knowledge_points` dict: ids in
first-occurrence order. -/
def kpDictKeys (kps : List KnowledgePoint) : List String :=
  kps.foldl (fun acc kp => if acc.contains kp.id then acc else acc ++ [kp.id]) []

/-- Lookup in the scheduler's `knowledge_points` dict: a duplicated id keeps
the last value, as in the Python dict comprehension. -/
def kpDictGet (kps : List KnowledgePoint) (kpId : String) : Option KnowledgePoint :=
  kps.foldl (fun acc kp => if kp.id = kpId then some kp else acc) none

/-- src/scheduler.py `ExerciseScheduler._get_mastery_for_kp`: fetch (or
create) the mastery record and initialise its FSRS state when absent.
scheduler.py invokes `mastery.initialize_fsrs()` without arguments; the
models.py signature requires a rating and its docstring fixes the baseline
at an initial Good review, which is the rating used here. -/
def getMasteryForKp (env : FsrsEnv) (s : StudentState) (kpId : String) :
    StudentMastery × StudentState :=
  let ms := s.get_mastery kpId
  match ms.1.fsrs_state with
  | none =>
      let m1 := ms.1.initialize_fsrs env Rating.good
      (m1, ms.2.setMastery (makeKey defaultTableId kpId) m1)
  | some _ => (ms.1, ms.2)

/-- The prerequisite loop of `ExerciseScheduler._prerequisites_met`: checks
each prerequisite's mastery in turn (creating/initialising records on the
way), returning False at the first unmastered one. -/
def prereqLoop (env : FsrsEnv) : List String → StudentState →
    Bool × StudentState
  | [], s => (true, s)
  | p :: ps, s =>
      let ms := getMasteryForKp env s p
      if ms.1.is_mastered then prereqLoop env ps ms.2 else (false, ms.2)

/-- src/scheduler.py `ExerciseScheduler._prerequisites_met`. -/
def prerequisitesMet (env : FsrsEnv) (kps : List KnowledgePoint)
    (s : StudentState) (kpId : String) : Bool × StudentState :=
  match kpDictGet kps kpId with
  | none => (false, s)
  | some kp => prereqLoop env kp.prerequisites s

/-- The first pass of `compose_session_queue`: ids whose prerequisites are
met, in dict iteration order. -/
def eligibleLoop (env : FsrsEnv) (kps : List KnowledgePoint) :
    List String → StudentState → List String × StudentState
  | [], s => ([], s)
  | k :: ks, s =>
      let bs := prerequisitesMet env kps s k
      let rest := eligibleLoop env kps ks bs.2
      (if bs.1 then k :: rest.1 else rest.1, rest.2)

/-- The second pass of `compose_session_queue`: filter to currently due
items. -/
def dueLoop (env : FsrsEnv) (now : Int) :
    List String → StudentState → List String × StudentState
  | [], s => ([], s)
  | k :: ks, s =>
      let ms := getMasteryForKp env s k
      let rest := dueLoop env now ks ms.2
      (if ms.1.is_due now then k :: rest.1 else rest.1, rest.2)

/-- The third pass of `compose_session_queue`: score each due item by
`1 - retrievability`, or `0.5` when retrievability is missing. -/
def scoreLoop (env : FsrsEnv) :
    List String → StudentState → List (String × ℚ) × StudentState
  | [], s => ([], s)
  | k :: ks, s =>
      let ms := getMasteryForKp env s k
      let score :=
        match StudentMastery.retrievability env ms.1 with
        | some r => 1 - r
        | none => (1 : ℚ)/2
      let rest := scoreLoop env ks ms.2
      ((k, score) :: rest.1, rest.2)

/-- The ordering used by `scored.sort(key=lambda x: x[1], reverse=True)`:
descending score. -/
def scoreRel (a b : String × ℚ) : Prop := b.2 ≤ a.2

instance : DecidableRel scoreRel := fun a b =>
  inferInstanceAs (Decidable (b.2 ≤ a.2))

instance : IsTotal (String × ℚ) scoreRel := ⟨fun a b => le_total b.2 a.2⟩

instance : IsTrans (String × ℚ) scoreRel :=
  ⟨fun _ _ _ hab hbc => le_trans hbc hab⟩

/-- Python's stable descending sort on the score component. -/
def sortByScoreDesc (l : List (String × ℚ)) : List (String × ℚ) :=
  List.insertionSort scoreRel l

/-- src/scheduler.py `ExerciseScheduler.compose_session_queue`. -/
def compose_session_queue (env : FsrsEnv) (now : Int)
    (kps : List KnowledgePoint) (s : StudentState)
    (sessionSize : Option Nat) : List String × StudentState :=
  let elig := eligibleLoop env kps (kpDictKeys kps) s
  if elig.1.isEmpty then ([], elig.2) else
  let due := dueLoop env now elig.1 elig.2
  if due.1.isEmpty then ([], due.2) else
  let scored := scoreLoop env due.1 due.2
  let sorted := sortByScoreDesc scored.1
  let cut :=
    match sessionSize with
    | some n => sorted.take n
    | none => sorted
  (cut.map Prod.fst, scored.2)

/-- The `scored` list computed inside `compose_session_queue` (the three
passes run in sequence on the threaded state), named so that theorems can
speak about the ordering of the final queue. -/
def composeScored (env : FsrsEnv) (now : Int) (kps : List KnowledgePoint)
    (s : StudentState) : List (String × ℚ) :=
  let elig := eligibleLoop env kps (kpDictKeys kps) s
  let due := dueLoop env now elig.1 elig.2
  (scoreLoop env due.1 due.2).1

/-! ### Invariance of mastery status during session composition

`compose_session_queue` creates and FSRS-initialises records while it runs,
but none of those writes change any record's mastered status, so the
prerequisite judgement is stable across the whole composition. -/

/-- The mastered valuation induced by a student state: absent records behave
as unmastered, matching the freshly created record. -/
def masteredVal (s : StudentState) (key : String) : Bool :=
  match lookupEntry s.masteries key with
  | some m => m.is_mastered
  | none => false

theorem lookupEntry_append_single (l : List (String × StudentMastery))
    (key k : String) (m : StudentMastery) :
    lookupEntry (l ++ [(key, m)]) k =
      match lookupEntry l k with
      | some v => some v
      | none => if key = k then some m else none := by
  induction l with
  | nil => simp [lookupEntry]
  | cons kv rest ih =>
    by_cases h : kv.1 = k
    · simp [lookupEntry, h]
    · simp [lookupEntry, h, ih]

theorem lookupEntry_setEntry_ne (l : List (String × StudentMastery))
    (key k : String) (m : StudentMastery) (h : key ≠ k) :
    lookupEntry (setEntry l key m) k = lookupEntry l k := by
  induction l with
  | nil => rfl
  | cons kv rest ih =>
    by_cases hk : kv.1 = key
    · rw [setEntry, if_pos hk, lookupEntry, lookupEntry, hk]
      rw [if_neg h, if_neg h]
      exact ih
    · rw [setEntry, if_neg hk, lookupEntry, lookupEntry]
      by_cases hkk : kv.1 = k
      · rw [if_pos hkk, if_pos hkk]
      · rw [if_neg hkk, if_neg hkk]
        exact ih

theorem lookupEntry_setEntry_self (l : List (String × StudentMastery))
    (key : String) (m : StudentMastery) :
    lookupEntry (setEntry l key m) key =
      (lookupEntry l key).map (fun _ => m) := by
  induction l with
  | nil => rfl
  | cons kv rest ih =>
    by_cases hk : kv.1 = key
    · rw [setEntry, if_pos hk, lookupEntry, lookupEntry, if_pos hk, if_pos rfl]
      rfl
    · rw [setEntry, if_neg hk, lookupEntry, lookupEntry, if_neg hk, if_neg hk]
      exact ih

theorem get_mastery_fst_is_mastered (s : StudentState) (rowId : String) :
    (s.get_mastery rowId).1.is_mastered =
      masteredVal s (makeKey defaultTableId rowId) := by
  rw [StudentState.get_mastery, masteredVal]
  cases lookupEntry s.masteries (makeKey defaultTableId rowId) with
  | none => rfl
  | some m => rfl

theorem get_mastery_masteredVal (s : StudentState) (rowId k : String) :
    masteredVal (s.get_mastery rowId).2 k = masteredVal s k := by
  rw [StudentState.get_mastery]
  cases h : lookupEntry s.masteries (makeKey defaultTableId rowId) with
  | some m => rfl
  | none =>
    show masteredVal ⟨s.masteries ++ [(makeKey defaultTableId rowId, _)]⟩ k
      = masteredVal s k
    rw [masteredVal, masteredVal]
    show (match lookupEntry (s.masteries ++ [(makeKey defaultTableId rowId,
      { table_id := defaultTableId, row_id := rowId,
        fsrs_state := none, is_mastered := false })]) k with
      | some m => m.is_mastered
      | none => false) = _
    rw [lookupEntry_append_single]
    cases h2 : lookupEntry s.masteries k with
    | some v => rfl
    | none =>
      by_cases hk : makeKey defaultTableId rowId = k
      · rw [if_pos hk]
      · rw [if_neg hk]

theorem setMastery_masteredVal (s : StudentState) (key : String)
    (m : StudentMastery) (k : String)
    (hm : m.is_mastered = masteredVal s key) :
    masteredVal (s.setMastery key m) k = masteredVal s k := by
  rw [masteredVal, masteredVal, StudentState.setMastery]
  by_cases hk : key = k
  · subst hk
    rw [lookupEntry_setEntry_self]
    cases h : lookupEntry s.masteries key with
    | none => rfl
    | some v =>
      show m.is_mastered = v.is_mastered
      rw [hm, masteredVal, h]
  · rw [lookupEntry_setEntry_ne _ _ _ _ hk]

theorem getMasteryForKp_is_mastered (env : FsrsEnv) (s : StudentState)
    (kpId : String) :
    (getMasteryForKp env s kpId).1.is_mastered =
      masteredVal s (makeKey defaultTableId kpId) := by
  rw [getMasteryForKp]
  cases h : (s.get_mastery kpId).1.fsrs_state with
  | none =>
    simp only [h]
    show ((s.get_mastery kpId).1.initialize_fsrs env Rating.good).is_mastered = _
    rw [StudentMastery.initialize_fsrs]
    exact get_mastery_fst_is_mastered s kpId
  | some st =>
    simp only [h]
    exact get_mastery_fst_is_mastered s kpId

theorem getMasteryForKp_masteredVal (env : FsrsEnv) (s : StudentState)
    (kpId k : String) :
    masteredVal (getMasteryForKp env s kpId).2 k = masteredVal s k := by
  rw [getMasteryForKp]
  cases h : (s.get_mastery kpId).1.fsrs_state with
  | none =>
    simp only [h]
    rw [setMastery_masteredVal]
    · exact get_mastery_masteredVal s kpId k
    · show (s.get_mastery kpId).1.is_mastered = _
      rw [get_mastery_fst_is_mastered, get_mastery_masteredVal]
  | some st =>
    simp only [h]
    exact get_mastery_masteredVal s kpId k

theorem prereqLoop_spec (env : FsrsEnv) :
    ∀ (ps : List String) (s : StudentState),
      (prereqLoop env ps s).1 =
        ps.all (fun p => masteredVal s (makeKey defaultTableId p)) ∧
      ∀ k, masteredVal (prereqLoop env ps s).2 k = masteredVal s k := by
  intro ps
  induction ps with
  | nil => intro s; exact ⟨rfl, fun _ => rfl⟩
  | cons p ps ih =>
    intro s
    rw [prereqLoop]
    have hmv : masteredVal (getMasteryForKp env s p).2 = masteredVal s :=
      funext (getMasteryForKp_masteredVal env s p)
    cases hb : (getMasteryForKp env s p).1.is_mastered with
    | false =>
      rw [if_neg (fun hc => nomatch hc)]
      refine ⟨?_, fun k => (getMasteryForKp_masteredVal env s p k)⟩
      have : masteredVal s (makeKey defaultTableId p) = false := by
        rw [← getMasteryForKp_is_mastered env s p, hb]
      simp [List.all_cons, this]
    | true =>
      rw [if_pos rfl]
      obtain ⟨ih1, ih2⟩ := ih (getMasteryForKp env s p).2
      constructor
      · rw [ih1, hmv]
        have : masteredVal s (makeKey defaultTableId p) = true := by
          rw [← getMasteryForKp_is_mastered env s p, hb]
        simp [List.all_cons, this]
      · intro k
        rw [ih2 k, getMasteryForKp_masteredVal]

/-- The pure prerequisite judgement determined by a mastered valuation:
the value `_prerequisites_met` computes, expressed without state threading. -/
def prereqMetPure (mv : String → Bool) (kps : List KnowledgePoint)
    (kpId : String) : Bool :=
  match kpDictGet kps kpId with
  | none => false
  | some kp => kp.prerequisites.all (fun p => mv (makeKey defaultTableId p))

theorem prerequisitesMet_spec (env : FsrsEnv) (kps : List KnowledgePoint)
    (s : StudentState) (kpId : String) :
    (prerequisitesMet env kps s kpId).1 =
      prereqMetPure (masteredVal s) kps kpId ∧
    ∀ k, masteredVal (prerequisitesMet env kps s kpId).2 k = masteredVal s k := by
  rw [prerequisitesMet, prereqMetPure]
  cases kpDictGet kps kpId with
  | none => exact ⟨rfl, fun _ => rfl⟩
  | some kp => exact prereqLoop_spec env kp.prerequisites s

theorem eligibleLoop_spec (env : FsrsEnv) (kps : List KnowledgePoint) :
    ∀ (ks : List String) (s : StudentState),
      (eligibleLoop env kps ks s).1 =
        ks.filter (fun k => prereqMetPure (masteredVal s) kps k) ∧
      ∀ k, masteredVal (eligibleLoop env kps ks s).2 k = masteredVal s k := by
  intro ks
  induction ks with
  | nil => intro s; exact ⟨rfl, fun _ => rfl⟩
  | cons k ks ih =>
    intro s
    rw [eligibleLoop]
    obtain ⟨hpm, hmv⟩ := prerequisitesMet_spec env kps s k
    have hmvf : masteredVal (prerequisitesMet env kps s k).2 = masteredVal s :=
      funext hmv
    obtain ⟨ih1, ih2⟩ := ih (prerequisitesMet env kps s k).2
    refine ⟨?_, fun key => by rw [ih2 key, hmv key]⟩
    rw [List.filter_cons]
    cases hb : (prerequisitesMet env kps s k).1 with
    | true =>
      rw [if_pos rfl]
      rw [hb] at hpm
      simp only [← hpm]
      rw [ih1, hmvf]
      simp [hb, hpm]
    | false =>
      rw [if_neg (fun hc => nomatch hc)]
      rw [hb] at hpm
      simp only [← hpm]
      rw [ih1, hmvf]
      simp [hb, ← hpm]

theorem dueLoop_spec (env : FsrsEnv) (now : Int) :
    ∀ (ks : List String) (s : StudentState),
      (dueLoop env now ks s).1 ⊆ ks := by
  intro ks
  induction ks with
  | nil => intro s; exact fun x hx => absurd hx (List.not_mem_nil x)
  | cons k ks ih =>
    intro s
    rw [dueLoop]
    cases hb : (getMasteryForKp env s k).1.is_due now with
    | true =>
      rw [if_pos rfl]
      exact List.cons_subset_cons k (ih _)
    | false =>
      rw [if_neg (fun hc => nomatch hc)]
      exact List.subset_cons_of_subset k (ih _)

theorem scoreLoop_map_fst (env : FsrsEnv) :
    ∀ (ks : List String) (s : StudentState),
      ((scoreLoop env ks s).1.map Prod.fst) = ks := by
  intro ks
  induction ks with
  | nil => intro s; rfl
  | cons k ks ih =>
    intro s
    rw [scoreLoop]
    show k :: ((scoreLoop env ks _).1.map Prod.fst) = k :: ks
    rw [ih]

/-- Claim C1: every item id in the list returned by `compose_session_queue`
has all of its prerequisites mastered at the time of composition — the
prerequisite check evaluated on the student state handed to the scheduler
returns true for it. -/
theorem compose_session_queue_prerequisites_met (env : FsrsEnv) (now : Int)
    (kps : List KnowledgePoint) (s : StudentState) (size : Option Nat)
    (kpId : String)
    (h : kpId ∈ (compose_session_queue env now kps s size).1) :
    (prerequisitesMet env kps s kpId).1 = true := by
  rw [compose_session_queue] at h
  by_cases h1 : (eligibleLoop env kps (kpDictKeys kps) s).1.isEmpty
  · rw [if_pos h1] at h
    exact absurd h (List.not_mem_nil kpId)
  · rw [if_neg h1] at h
    by_cases h2 : (dueLoop env now (eligibleLoop env kps (kpDictKeys kps) s).1
        (eligibleLoop env kps (kpDictKeys kps) s).2).1.isEmpty
    · rw [if_pos h2] at h
      exact absurd h (List.not_mem_nil kpId)
    · rw [if_neg h2] at h
      have hsorted : kpId ∈ (sortByScoreDesc
          (scoreLoop env
            (dueLoop env now (eligibleLoop env kps (kpDictKeys kps) s).1
              (eligibleLoop env kps (kpDictKeys kps) s).2).1
            (dueLoop env now (eligibleLoop env kps (kpDictKeys kps) s).1
              (eligibleLoop env kps (kpDictKeys kps) s).2).2).1).map Prod.fst := by
        cases size with
        | none => exact h
        | some n =>
          exact ((List.take_sublist n _).map Prod.fst).subset h
      have hperm := List.perm_insertionSort scoreRel
        (scoreLoop env
          (dueLoop env now (eligibleLoop env kps (kpDictKeys kps) s).1
            (eligibleLoop env kps (kpDictKeys kps) s).2).1
          (dueLoop env now (eligibleLoop env kps (kpDictKeys kps) s).1
            (eligibleLoop env kps (kpDictKeys kps) s).2).2).1
      have hdue : kpId ∈ (dueLoop env now
          (eligibleLoop env kps (kpDictKeys kps) s).1
          (eligibleLoop env kps (kpDictKeys kps) s).2).1 := by
        rw [← scoreLoop_map_fst env
          (dueLoop env now (eligibleLoop env kps (kpDictKeys kps) s).1
            (eligibleLoop env kps (kpDictKeys kps) s).2).1
          (dueLoop env now (eligibleLoop env kps (kpDictKeys kps) s).1
            (eligibleLoop env kps (kpDictKeys kps) s).2).2]
        exact (hperm.map Prod.fst).subset hsorted
      have helig : kpId ∈ (eligibleLoop env kps (kpDictKeys kps) s).1 :=
        dueLoop_spec env now _ _ hdue
      obtain ⟨hfil, _⟩ := eligibleLoop_spec env kps (kpDictKeys kps) s
      rw [hfil] at helig
      have := List.of_mem_filter helig
      obtain ⟨hpm, _⟩ := prerequisitesMet_spec env kps s kpId
      rw [hpm]
      exact this

/-- A knowledge point with no prerequisites and empty display fields. -/
def kpPlain (i : String) : KnowledgePoint :=
  { id := i, type := KnowledgePointType.vocabulary, chinese := "",
    pinyin := "", english := "", tags := [], prerequisites := [] }

/-- A stored card that is overdue (due at time `-1`) whose stability field
doubles as the retrievability reported by `envScore`. -/
def cardDue (r : ℚ) : FSRSState :=
  { stability := some r, difficulty := none, due := some (-1),
    last_review := none, state := 2, step := none }

/-- A concrete FSRS environment whose retrievability reads the stored
stability field. -/
def envScore : FsrsEnv :=
  { reviewCard := fun c _ => c,
    getCardRetrievability := fun c => c.stability,
    freshCard := cardBlank }

/-- A masteries-dict entry with the given mastered flag and retrievability. -/
def masteryEntry (i : String) (mastered : Bool) (r : ℚ) :
    String × StudentMastery :=
  (makeKey defaultTableId i,
    { table_id := defaultTableId, row_id := i,
      fsrs_state := some (cardDue r), is_mastered := mastered })

/-- Witness for C1 at concrete inputs. -/
theorem compose_session_queue_prerequisites_met_witness :
    (prerequisitesMet envScore [kpPlain "a"]
      ⟨[masteryEntry "a" false 0]⟩ "a").1 = true :=
  compose_session_queue_prerequisites_met envScore 0 [kpPlain "a"]
    ⟨[masteryEntry "a" false 0]⟩ none "a" (by decide)

theorem compose_session_queue_eq_sorted_take (env : FsrsEnv) (now : Int)
    (kps : List KnowledgePoint) (s : StudentState) (n : ℕ) :
    (compose_session_queue env now kps s (some n)).1 =
      ((sortByScoreDesc (composeScored env now kps s)).take n).map Prod.fst := by
  simp only [compose_session_queue, composeScored]
  by_cases h1 : (eligibleLoop env kps (kpDictKeys kps) s).1.isEmpty
  · rw [if_pos h1]
    have h0 : (eligibleLoop env kps (kpDictKeys kps) s).1 = [] := by
      simpa using h1
    rw [h0]
    simp [dueLoop, scoreLoop, sortByScoreDesc]
  · rw [if_neg h1]
    by_cases h2 : (dueLoop env now (eligibleLoop env kps (kpDictKeys kps) s).1
        (eligibleLoop env kps (kpDictKeys kps) s).2).1.isEmpty
    · rw [if_pos h2]
      have h0 : (dueLoop env now (eligibleLoop env kps (kpDictKeys kps) s).1
          (eligibleLoop env kps (kpDictKeys kps) s).2).1 = [] := by
        simpa using h2
      rw [h0]
      simp [scoreLoop, sortByScoreDesc]
    · rw [if_neg h2]

/-- Claim C5 (amended): `compose_session_queue` does not sample learning and
retention pools at a ratio; it returns the prerequisite-eligible, currently
due items ordered by non-increasing priority `1 - retrievability` (priority
`0.5` when retrievability is missing), truncated to the session size: the
queue is the stable descending sort of the scored due items (a permutation
of them, in non-increasing score order), cut to `n`, every queued id being
one of the eligible ids. -/
theorem compose_session_queue_priority_order (env : FsrsEnv) (now : Int)
    (kps : List KnowledgePoint) (s : StudentState) (n : ℕ) :
    (compose_session_queue env now kps s (some n)).1 =
      ((sortByScoreDesc (composeScored env now kps s)).take n).map Prod.fst ∧
    (sortByScoreDesc (composeScored env now kps s)).Perm
      (composeScored env now kps s) ∧
    List.Pairwise scoreRel (sortByScoreDesc (composeScored env now kps s)) ∧
    (compose_session_queue env now kps s (some n)).1.length ≤ n ∧
    ∀ kpId ∈ (composeScored env now kps s).map Prod.fst,
      kpId ∈ (eligibleLoop env kps (kpDictKeys kps) s).1 := by
  refine ⟨compose_session_queue_eq_sorted_take env now kps s n,
    List.perm_insertionSort scoreRel _,
    List.sorted_insertionSort scoreRel _, ?_, ?_⟩
  · rw [compose_session_queue_eq_sorted_take env now kps s n, List.length_map]
    exact List.length_take_le n _
  · intro kpId h
    simp only [composeScored] at h
    rw [scoreLoop_map_fst] at h
    exact dueLoop_spec env now _ _ h

/-- Witness for C5 at concrete inputs. -/
theorem compose_session_queue_priority_order_witness :
    "a" ∈ (eligibleLoop envScore [kpPlain "a"] (kpDictKeys [kpPlain "a"])
      ⟨[masteryEntry "a" false 0]⟩).1 :=
  (compose_session_queue_priority_order envScore 0 [kpPlain "a"]
    ⟨[masteryEntry "a" false 0]⟩ 1).2.2.2.2 "a" (by decide)

/-- Three retention items (mastered, retrievability 0, hence priority 1) and
three learning items (unmastered, retrievability 0.9, hence priority 0.1),
all due and prerequisite-free. -/
def c5Kps : List KnowledgePoint :=
  (["r1", "r2", "r3"] ++ ["l1", "l2", "l3"]).map kpPlain

/-- The student state for the C5 counterexample. -/
def c5State : StudentState :=
  ⟨(["r1", "r2", "r3"].map (fun i => masteryEntry i true 0)) ++
    (["l1", "l2", "l3"].map (fun i => masteryEntry i false (9/10)))⟩

set_option maxHeartbeats 2000000 in
/-- Claim C5 counterexample: with a nonempty learning pool (three unmastered
due items) the claimed default 70% learning / 30% retention sampling would
put learning items into a three-item session; `compose_session_queue`
instead returns the three retention items and zero learning items — it
consults no pools and no ratio, only the retrievability ordering. -/
theorem compose_session_queue_ratio_counterexample :
    (compose_session_queue envScore 0 c5Kps c5State (some 3)).1 =
      ["r1", "r2", "r3"] ∧
    (compose_session_queue envScore 0 c5Kps c5State none).1.length = 6 ∧
    (compose_session_queue envScore 0 c5Kps c5State (some 3)).1.countP
      (fun i => ["l1", "l2", "l3"].contains i) = 0 ∧
    c5Kps.filter
      (fun kp => !(masteredVal c5State (makeKey defaultTableId kp.id))) ≠
      [] := by
  refine ⟨?_, ?_, ?_, ?_⟩ <;>
    norm_num +decide [compose_session_queue, composeScored, eligibleLoop,
      prerequisitesMet, kpDictGet, kpDictKeys, prereqLoop, getMasteryForKp,
      StudentState.get_mastery, lookupEntry, makeKey, defaultTableId, c5Kps,
      c5State, kpPlain, masteryEntry, dueLoop, StudentMastery.is_due,
      StudentMastery.due_date, scoreLoop, StudentMastery.retrievability,
      envScore, cardDue, cardBlank, sortByScoreDesc, List.insertionSort,
      List.orderedInsert, scoreRel, StudentState.setMastery, setEntry,
      StudentMastery.initialize_fsrs, masteredVal, List.countP, List.countP.go]

/-! ### src/exercises/schemas.py, config.py, generic_models.py

Schema rows; `dict[str, Any]` metadata is modelled as an association list of
strings (the generator only copies it and reads the string `pinyin` entry).
The Python dict-merge `{**a, **b}` (later wins) is stored with the winning
entries first, since association-list lookup is first-match. -/

/-- src/exercises/schemas.py `PromptType`. -/
structure PromptType where
  id : String
  template : String
  metadata : List (String × String)
deriving DecidableEq, Inhabited

/-- src/exercises/schemas.py `PromptValue`. -/
structure PromptValue where
  prompt_type_id : String
  value : String
  correct_answer : String
  knowledge_point_id : String
  metadata : List (String × String)
deriving DecidableEq, Inhabited

/-- src/exercises/schemas.py `OptionType`. -/
structure OptionType where
  id : String
  prompt_type_id : String
  metadata : List (String × String)
deriving DecidableEq

/-- src/exercises/schemas.py `Option` (named `MCOption` here to avoid the
Lean `Option` type). -/
structure MCOption where
  prompt_type_id : String
  value : String
  option_type_id : String
  option_value : String
  metadata : List (String × String)
deriving DecidableEq, Inhabited

/-- src/exercises/schemas.py `MultipleChoiceSchema`. -/
structure MultipleChoiceSchema where
  prompt_types : List PromptType
  prompt_values : List PromptValue
  option_types : List OptionType
  options : List MCOption
deriving DecidableEq

/-- src/exercises/config.py `MultipleChoiceConfig`; pydantic validates
`2 ≤ total_options ≤ 6`, carried as hypotheses in the theorems. -/
structure MultipleChoiceConfig where
  total_options : Nat := 4
  min_distractors : Nat := 1
  max_distractors : Nat := 3
  shuffle_options : Bool := true
deriving DecidableEq

/-- src/exercises/config.py `FillBlankConfig` (note: no `max_distractors`
field exists for fill-blank). -/
structure FillBlankConfig where
  total_options : Nat := 4
  min_distractors : Nat := 1
  shuffle_options : Bool := true
deriving DecidableEq

/-- src/exercises/generic_models.py `MultipleChoiceExercise`. -/
structure MultipleChoiceExercise where
  id : String
  source_ids : List String
  difficulty : ℚ
  prompt : String
  prompt_secondary : String
  options : List String
  correct_index : Nat
  metadata : List (String × String)

/-- src/exercises/schemas.py `BlankTemplate`. -/
structure BlankTemplate where
  id : String
  sentence : String
  context : String
  target_position : Nat
  metadata : List (String × String)
deriving DecidableEq, Inhabited

/-- src/exercises/schemas.py `BlankFill`. -/
structure BlankFill where
  template_id : String
  correct_answer : String
  knowledge_point_id : String
  metadata : List (String × String)
deriving DecidableEq, Inhabited

/-- src/exercises/schemas.py `BlankOption`. -/
structure BlankOption where
  template_id : String
  fill_value : String
  option_type_id : String
  option_value : String
  metadata : List (String × String)
deriving DecidableEq, Inhabited

/-- src/exercises/schemas.py `FillBlankSchema` (the `option_types` table is
not read by the generator and is omitted from rows it would not change). -/
structure FillBlankSchema where
  templates : List BlankTemplate
  fills : List BlankFill
  options : List BlankOption
deriving DecidableEq

/-- src/exercises/generic_models.py `FillBlankExercise`. -/
structure FillBlankExercise where
  id : String
  source_ids : List String
  difficulty : ℚ
  sentence : String
  context : String
  options : List String
  correct_index : Nat
  metadata : List (String × String)

/-! ### src/exercises/generators.py — MultipleChoiceGenerator / FillBlankGenerator

`random.choice` is modelled by an index reduced modulo the candidate count;
each `random.shuffle` call by a list-rearranging function, constrained to
produce permutations in the theorems; `uuid.uuid4()` by a supplied id. -/

/-- The randomness consumed by one `MultipleChoiceGenerator.generate` call. -/
structure McRng where
  pick : Nat
  shuffleDistractors : List MCOption → List MCOption
  shuffleNondistractors : List MCOption → List MCOption
  shuffleOptions : List String → List String
  freshId : String

/-- The randomness consumed by one `FillBlankGenerator.generate` call. -/
structure FbRng where
  pick : Nat
  shuffleDistractors : List BlankOption → List BlankOption
  shuffleNondistractors : List BlankOption → List BlankOption
  shuffleOptions : List String → List String
  freshId : String

/-- The two `num_distractors` lines of `MultipleChoiceGenerator.generate`:
`min(len(ds), min(max_distractors, num_wrong_needed))` then raised to at
least `min(min_distractors, len(ds))`. -/
def mcNumDistractors (config : MultipleChoiceConfig) (numAvail : Nat) : Nat :=
  max (min numAvail (min config.max_distractors (config.total_options - 1)))
    (min config.min_distractors numAvail)

/-- The wrong-answer assembly of `MultipleChoiceGenerator.generate`: selected
distractor values, then nondistractor values for the remaining slots. -/
def mcSelectWrong (config : MultipleChoiceConfig) (ds ns : List String) :
    List String :=
  let sel := ds.take (mcNumDistractors config ds.length)
  sel ++ ns.take (config.total_options - 1 - sel.length)

/-- The candidate prompt values of `MultipleChoiceGenerator.generate`,
after the optional target and prompt-type filters. -/
def mcCandidates (schema : MultipleChoiceSchema) :
    Option String → Option String → List PromptValue
  | some t, some p =>
      (schema.prompt_values.filter
        (fun pv => pv.knowledge_point_id == t)).filter
          (fun pv => pv.prompt_type_id == p)
  | some t, none =>
      schema.prompt_values.filter (fun pv => pv.knowledge_point_id == t)
  | none, some p =>
      schema.prompt_values.filter (fun pv => pv.prompt_type_id == p)
  | none, none => schema.prompt_values

/-- The option rows available for a prompt value (`available_options` in
`MultipleChoiceGenerator.generate`). -/
def mcAvailable (schema : MultipleChoiceSchema) (pv : PromptValue) :
    List MCOption :=
  schema.options.filter (fun o =>
    o.prompt_type_id == pv.prompt_type_id && o.value == pv.value)

/-- src/exercises/generators.py `MultipleChoiceGenerator.generate`. -/
def mcGenerate (schema : MultipleChoiceSchema) (config : MultipleChoiceConfig)
    (rng : McRng) (targetKpId : Option String) (promptTypeId : Option String) :
    Option MultipleChoiceExercise :=
  let candidates := mcCandidates schema targetKpId promptTypeId
  if candidates.isEmpty then none
  else
    let pv := candidates.getD (rng.pick % candidates.length) default
    match schema.prompt_types.find? (fun pt => pt.id == pv.prompt_type_id) with
    | none => none
    | some pt =>
        let available := mcAvailable schema pv
        let distractors := available.filter (fun o => o.option_type_id == "distractor")
        let nondistractors :=
          available.filter (fun o => o.option_type_id == "nondistractor")
        let selected := mcSelectWrong config
          ((rng.shuffleDistractors distractors).map (fun o => o.option_value))
          ((rng.shuffleNondistractors nondistractors).map (fun o => o.option_value))
        if selected.length < config.total_options - 1 then none
        else
          let options0 :=
            pv.correct_answer :: selected.take (config.total_options - 1)
          let options :=
            if config.shuffle_options then rng.shuffleOptions options0 else options0
          some
            { id := rng.freshId,
              source_ids := [pv.knowledge_point_id],
              difficulty := 2/5,
              prompt := pt.template.replace "{value}" pv.value,
              prompt_secondary :=
                if pv.prompt_type_id == "chinese_to_english" ||
                    pv.prompt_type_id == "minimal_pair" then
                  (pv.metadata.lookup "pinyin").getD ""
                else "",
              options := options,
              correct_index := options.indexOf pv.correct_answer,
              metadata := pv.metadata ++ pt.metadata ++
                [("prompt_type", pv.prompt_type_id)] }

/-- The `num_distractors` line of `FillBlankGenerator.generate`:
`min(len(distractors), min_distractors)` — no `max_distractors` exists. -/
def fbNumDistractors (config : FillBlankConfig) (numAvail : Nat) : Nat :=
  min numAvail config.min_distractors

/-- The wrong-answer assembly of `FillBlankGenerator.generate`. -/
def fbSelectWrong (config : FillBlankConfig) (ds ns : List String) :
    List String :=
  let sel := ds.take (fbNumDistractors config ds.length)
  sel ++ ns.take (config.total_options - 1 - sel.length)

/-- The candidate fills of `FillBlankGenerator.generate`. -/
def fbCandidates (schema : FillBlankSchema) :
    Option String → List BlankFill
  | some t => schema.fills.filter (fun f => f.knowledge_point_id == t)
  | none => schema.fills

/-- The option rows available for a fill (`available_options` in
`FillBlankGenerator.generate`). -/
def fbAvailable (schema : FillBlankSchema) (fill : BlankFill) :
    List BlankOption :=
  schema.options.filter (fun o =>
    o.template_id == fill.template_id && o.fill_value == fill.correct_answer)

/-- src/exercises/generators.py `FillBlankGenerator.generate`. -/
def fbGenerate (schema : FillBlankSchema) (config : FillBlankConfig)
    (rng : FbRng) (targetKpId : Option String) : Option FillBlankExercise :=
  let candidates := fbCandidates schema targetKpId
  if candidates.isEmpty then none
  else
    let fill := candidates.getD (rng.pick % candidates.length) default
    match schema.templates.find? (fun t => t.id == fill.template_id) with
    | none => none
    | some template =>
        let available := fbAvailable schema fill
        let distractors := available.filter (fun o => o.option_type_id == "distractor")
        let nondistractors :=
          available.filter (fun o => o.option_type_id == "nondistractor")
        let selected := fbSelectWrong config
          ((rng.shuffleDistractors distractors).map (fun o => o.option_value))
          ((rng.shuffleNondistractors nondistractors).map (fun o => o.option_value))
        if selected.length < config.total_options - 1 then none
        else
          let options0 :=
            fill.correct_answer :: selected.take (config.total_options - 1)
          let options :=
            if config.shuffle_options then rng.shuffleOptions options0 else options0
          some
            { id := rng.freshId,
              source_ids := [fill.knowledge_point_id],
              difficulty := 1/2,
              sentence := template.sentence,
              context := template.context,
              options := options,
              correct_index := options.indexOf fill.correct_answer,
              metadata := fill.metadata ++ [("template_id", template.id)] }

theorem mcNumDistractors_le (config : MultipleChoiceConfig) (n : Nat) :
    mcNumDistractors config n ≤ n := by
  unfold mcNumDistractors
  omega

theorem fbNumDistractors_le (config : FillBlankConfig) (n : Nat) :
    fbNumDistractors config n ≤ n := by
  unfold fbNumDistractors
  omega

theorem mcSelectWrong_sublist (config : MultipleChoiceConfig)
    (ds ns : List String) :
    (mcSelectWrong config ds ns).Sublist (ds ++ ns) :=
  List.Sublist.append (List.take_sublist _ _) (List.take_sublist _ _)

theorem fbSelectWrong_sublist (config : FillBlankConfig)
    (ds ns : List String) :
    (fbSelectWrong config ds ns).Sublist (ds ++ ns) :=
  List.Sublist.append (List.take_sublist _ _) (List.take_sublist _ _)

theorem mcCandidates_subset (schema : MultipleChoiceSchema)
    (target ptype : Option String) :
    mcCandidates schema target ptype ⊆ schema.prompt_values := by
  cases target <;> cases ptype <;>
    first
      | exact fun x hx => hx
      | exact fun x hx => List.filter_subset' _ hx
      | exact fun x hx => List.filter_subset' _ (List.filter_subset' _ hx)

theorem fbCandidates_subset (schema : FillBlankSchema)
    (target : Option String) :
    fbCandidates schema target ⊆ schema.fills := by
  cases target
  · exact fun x hx => hx
  · exact fun x hx => List.filter_subset' _ hx

/-- Two filter-partitions of a list with value-distinct rows have disjoint,
duplicate-free value images. -/
theorem nodup_partition_append {α : Type} (l : List α) (val typ : α → String)
    (h : (l.map val).Nodup) {t1 t2 : String} (hne : t1 ≠ t2) :
    (((l.filter (fun o => typ o == t1)).map val) ++
      ((l.filter (fun o => typ o == t2)).map val)).Nodup := by
  refine List.Nodup.append ?_ ?_ ?_
  · exact h.sublist ((List.filter_sublist l).map val)
  · exact h.sublist ((List.filter_sublist l).map val)
  · intro x hx1 hx2
    obtain ⟨a, ha, hav⟩ := List.mem_map.mp hx1
    obtain ⟨b, hb, hbv⟩ := List.mem_map.mp hx2
    obtain ⟨haL, hat⟩ := List.mem_filter.mp ha
    obtain ⟨hbL, hbt⟩ := List.mem_filter.mp hb
    have hab : a = b :=
      List.inj_on_of_nodup_map h haL hbL (by rw [hav, hbv])
    rw [hab] at hat
    exact hne (by rw [← beq_iff_eq.mp hat, beq_iff_eq.mp hbt])

/-- Claim C6 (amended): when `MultipleChoiceGenerator.generate` succeeds, the
exercise has exactly `total_options` options and `options[correct_index]` is
the correct answer recorded for the selected prompt value; the options are
pairwise distinct PROVIDED the schema's option values available for each
prompt value are pairwise distinct and none of them equals the recorded
correct answer (the generator itself never deduplicates, see the
counterexample). -/
theorem mc_generate_options_sound (schema : MultipleChoiceSchema)
    (config : MultipleChoiceConfig) (rng : McRng)
    (target ptype : Option String)
    (htot : 2 ≤ config.total_options)
    (hsd : ∀ l, (rng.shuffleDistractors l).Perm l)
    (hsn : ∀ l, (rng.shuffleNondistractors l).Perm l)
    (hso : ∀ l, (rng.shuffleOptions l).Perm l)
    (hvals : ∀ pv ∈ schema.prompt_values,
      ((mcAvailable schema pv).map (fun o => o.option_value)).Nodup ∧
      pv.correct_answer ∉ (mcAvailable schema pv).map (fun o => o.option_value))
    (e : MultipleChoiceExercise)
    (hgen : mcGenerate schema config rng target ptype = some e) :
    e.options.length = config.total_options ∧
    e.options.Nodup ∧
    ∃ pv ∈ schema.prompt_values,
      e.source_ids = [pv.knowledge_point_id] ∧
      e.options.getD e.correct_index "" = pv.correct_answer := by
  simp only [mcGenerate] at hgen
  by_cases hemp : (mcCandidates schema target ptype).isEmpty
  · rw [if_pos hemp] at hgen
    exact absurd hgen (by simp)
  · rw [if_neg hemp] at hgen
    have hlen0 : 0 < (mcCandidates schema target ptype).length := by
      cases hc : mcCandidates schema target ptype with
      | nil => rw [hc] at hemp; exact absurd rfl hemp
      | cons a as => simp [hc]
    set pv := (mcCandidates schema target ptype).getD
      (rng.pick % (mcCandidates schema target ptype).length) default with hpv
    have hpmem : pv ∈ schema.prompt_values := by
      apply mcCandidates_subset schema target ptype
      rw [hpv, List.getD_eq_getElem _ _ (Nat.mod_lt _ hlen0)]
      exact List.getElem_mem _
    set ds := ((rng.shuffleDistractors ((mcAvailable schema pv).filter
      (fun o => o.option_type_id == "distractor"))).map
        (fun o => o.option_value)) with hds
    set ns := ((rng.shuffleNondistractors ((mcAvailable schema pv).filter
      (fun o => o.option_type_id == "nondistractor"))).map
        (fun o => o.option_value)) with hns
    set selected := mcSelectWrong config ds ns with hsel
    split at hgen
    · exact absurd hgen (by simp)
    · rename_i pt hfind
      split at hgen
      · exact absurd hgen (by simp)
      · rename_i hshort
        have he := Option.some.inj hgen
        subst he
        obtain ⟨hv1, hv2⟩ := hvals pv hpmem
        set options0 := pv.correct_answer ::
          selected.take (config.total_options - 1) with hopt0
        set opts := if config.shuffle_options then rng.shuffleOptions options0
          else options0 with hopts
        have hperm : opts.Perm options0 := by
          rw [hopts]
          split
          · exact hso options0
          · exact List.Perm.refl options0
        have htklen : (selected.take (config.total_options - 1)).length =
            config.total_options - 1 := by
          rw [List.length_take]
          omega
        have hpools : ((((mcAvailable schema pv).filter
            (fun o => o.option_type_id == "distractor")).map
              (fun o => o.option_value)) ++
            (((mcAvailable schema pv).filter
              (fun o => o.option_type_id == "nondistractor")).map
                (fun o => o.option_value))).Nodup :=
          nodup_partition_append _ _ _ hv1 (by decide)
        have hdsns : (ds ++ ns).Perm _ :=
          List.Perm.append ((hsd _).map (fun o => o.option_value))
            ((hsn _).map (fun o => o.option_value))
        have hndn : (ds ++ ns).Nodup := hdsns.nodup_iff.mpr hpools
        have htksub : (selected.take (config.total_options - 1)).Sublist
            (ds ++ ns) :=
          (List.take_sublist _ _).trans (mcSelectWrong_sublist config ds ns)
        have hmempool : ∀ x ∈ ds ++ ns,
            x ∈ (mcAvailable schema pv).map (fun o => o.option_value) := by
          intro x hx
          rcases List.mem_append.mp (hdsns.subset hx) with hx1 | hx1
          · exact ((List.filter_sublist _).map
              (fun o : MCOption => o.option_value)).subset hx1
          · exact ((List.filter_sublist _).map
              (fun o : MCOption => o.option_value)).subset hx1
        have hnodup0 : options0.Nodup := by
          rw [hopt0, List.nodup_cons]
          constructor
          · intro hmem
            exact hv2 (hmempool _ (htksub.subset hmem))
          · exact hndn.sublist htksub
        refine ⟨?_, ?_, pv, hpmem, rfl, ?_⟩
        · show opts.length = config.total_options
          rw [hperm.length_eq, hopt0, List.length_cons, htklen]
          omega
        · exact hperm.nodup_iff.mpr hnodup0
        · show opts.getD (opts.indexOf pv.correct_answer) "" = pv.correct_answer
          have hmem : pv.correct_answer ∈ opts :=
            hperm.mem_iff.mpr (by rw [hopt0]; exact List.mem_cons_self _ _)
          have hidx := List.indexOf_lt_length.mpr hmem
          rw [List.getD_eq_getElem _ _ hidx]
          exact List.getElem_indexOf hidx

/-- A schema whose option pool holds the same distractor value twice. -/
def c6Schema : MultipleChoiceSchema :=
  { prompt_types := [⟨"english_to_chinese", "What is {value}?", []⟩],
    prompt_values := [⟨"english_to_chinese", "v", "c", "k1", []⟩],
    option_types := [],
    options := [⟨"english_to_chinese", "v", "distractor", "x", []⟩,
      ⟨"english_to_chinese", "v", "distractor", "x", []⟩] }

/-- A three-option config requiring two distractors, without shuffling. -/
def c6Config : MultipleChoiceConfig :=
  { total_options := 3, min_distractors := 2, max_distractors := 3,
    shuffle_options := false }

/-- Randomness that picks the first candidate and shuffles nothing. -/
def rngIdMc : McRng := ⟨0, id, id, id, "ex-mc"⟩

/-- Claim C6 counterexample: with two schema option rows carrying the same
value, `MultipleChoiceGenerator.generate` returns an exercise whose options
are `["c", "x", "x"]` — the correct length with `options[correct_index]`
right, but with duplicate entries, against the claim's no-duplicates part. -/
theorem mc_generate_duplicates_counterexample :
    (mcGenerate c6Schema c6Config rngIdMc (some "k1") none).map
      (fun e => e.options) = some ["c", "x", "x"] ∧
    ¬ (["c", "x", "x"] : List String).Nodup ∧
    (mcGenerate c6Schema c6Config rngIdMc (some "k1") none).map
      (fun e => e.options.length) = some c6Config.total_options :=
  ⟨rfl, by decide, rfl⟩

/-- A schema with distinct option values for the witness. -/
def c6WSchema : MultipleChoiceSchema :=
  { prompt_types := [⟨"english_to_chinese", "What is {value}?", []⟩],
    prompt_values := [⟨"english_to_chinese", "v", "c", "k1", []⟩],
    option_types := [],
    options := [⟨"english_to_chinese", "v", "distractor", "x", []⟩,
      ⟨"english_to_chinese", "v", "nondistractor", "y", []⟩] }

/-- Witness for C6 at concrete inputs. -/
theorem mc_generate_options_sound_witness :
    ((mcGenerate c6WSchema c6Config rngIdMc (some "k1") none).map
      (fun e => e.options.length = c6Config.total_options ∧
        e.options.Nodup)).getD False := by
  have hs : (mcGenerate c6WSchema c6Config rngIdMc (some "k1") none).isSome =
      true := rfl
  cases hg : mcGenerate c6WSchema c6Config rngIdMc (some "k1") none with
  | none => rw [hg] at hs; exact nomatch hs
  | some e =>
    simp only [hg, Option.map_some', Option.getD_some]
    obtain ⟨h1, h2, _⟩ := mc_generate_options_sound c6WSchema c6Config rngIdMc
      (some "k1") none (by decide)
      (fun l => List.Perm.refl l) (fun l => List.Perm.refl l)
      (fun l => List.Perm.refl l)
      (by decide) e hg
    exact ⟨h1, h2⟩

/-- Claim C7 (amended): the wrong-answer selection differs between the two
families and from `clamp(min_distractors, max_distractors, available)`.
Multiple choice takes `max(min(avail, max_distractors, total_options-1),
min(min_distractors, avail))` distractor values; fill-blank has no
`max_distractors` and takes only `min(avail, min_distractors)`; both then
fill the remaining wrong-answer slots from nondistractors, and whenever the
total available wrong answers fall short of `total_options - 1` the
selection stays short, so generation returns none rather than fabricating an
option (fill-blank can also return none with enough total wrong answers
available, see the counterexample). -/
theorem distractor_count_formulas :
    (∀ (config : MultipleChoiceConfig) (ds ns : List String),
        mcSelectWrong config ds ns =
          ds.take (mcNumDistractors config ds.length) ++
            ns.take (config.total_options - 1 -
              mcNumDistractors config ds.length)) ∧
    (∀ (config : FillBlankConfig) (ds ns : List String),
        fbSelectWrong config ds ns =
          ds.take (fbNumDistractors config ds.length) ++
            ns.take (config.total_options - 1 -
              fbNumDistractors config ds.length)) ∧
    (∀ (config : MultipleChoiceConfig) (ds ns : List String),
        ds.length + ns.length < config.total_options - 1 →
        (mcSelectWrong config ds ns).length < config.total_options - 1) ∧
    (∀ (config : FillBlankConfig) (ds ns : List String),
        ds.length + ns.length < config.total_options - 1 →
        (fbSelectWrong config ds ns).length < config.total_options - 1) := by
  refine ⟨?_, ?_, ?_, ?_⟩
  · intro config ds ns
    simp only [mcSelectWrong]
    rw [List.length_take, Nat.min_eq_left (mcNumDistractors_le config _)]
  · intro config ds ns
    simp only [fbSelectWrong]
    rw [List.length_take, Nat.min_eq_left (fbNumDistractors_le config _)]
  · intro config ds ns h
    calc (mcSelectWrong config ds ns).length
        ≤ (ds ++ ns).length := (mcSelectWrong_sublist config ds ns).length_le
      _ = ds.length + ns.length := List.length_append ds ns
      _ < config.total_options - 1 := h
  · intro config ds ns h
    calc (fbSelectWrong config ds ns).length
        ≤ (ds ++ ns).length := (fbSelectWrong_sublist config ds ns).length_le
      _ = ds.length + ns.length := List.length_append ds ns
      _ < config.total_options - 1 := h

/-- Witness for C7 at concrete inputs. -/
theorem distractor_count_formulas_witness :
    (mcSelectWrong { total_options := 4 } ["a"] []).length < 3 :=
  distractor_count_formulas.2.2.1 { total_options := 4 } ["a"] [] (by decide)

/-- One fill-blank template with three distractors available and no
nondistractors. -/
def c7Schema : FillBlankSchema :=
  { templates := [⟨"t1", "___ ok", "", 0, []⟩],
    fills := [⟨"t1", "c", "k1", []⟩],
    options := [⟨"t1", "c", "distractor", "d1", []⟩,
      ⟨"t1", "c", "distractor", "d2", []⟩,
      ⟨"t1", "c", "distractor", "d3", []⟩] }

/-- The default fill-blank config (four options, one minimum distractor). -/
def c7Config : FillBlankConfig :=
  { total_options := 4, min_distractors := 1, shuffle_options := false }

/-- Randomness that picks the first fill and shuffles nothing. -/
def rngIdFb : FbRng := ⟨0, id, id, id, "ex-fb"⟩

/-- Claim C7 counterexample: three distractors are available and three wrong
answers are needed, so the claimed `clamp(min, max, available)` would pick
all three and generate an exercise; `FillBlankGenerator.generate` instead
picks `min(available, min_distractors) = 1` distractor and returns none even
though the available wrong answers do not fall short. -/
theorem fb_generate_clamp_counterexample :
    fbGenerate c7Schema c7Config rngIdFb (some "k1") = none ∧
    ((fbAvailable c7Schema ⟨"t1", "c", "k1", []⟩).filter
      (fun o => o.option_type_id == "distractor")).length = 3 ∧
    c7Config.total_options - 1 = 3 ∧
    fbNumDistractors c7Config 3 = 1 :=
  ⟨rfl, rfl, rfl, rfl⟩

/-! ### src/exercises/generic_handlers.py — ReorderHandler

`check_answer` parses the user input with `int(x)` over whitespace-split
tokens and indexes the displayed list with `shuffled_items[i - 1]`, catching
`ValueError` and `IndexError` as "incorrect". Python list indexing accepts
negative indices (counting from the end), so the embedding models it with
`pyGet`; `int()` accepts an optional sign and digits with single
underscores between digits (Unicode digits are out of scope here). An
uncaught exception is modelled as `Except.error ()`. -/

/-- src/exercises/generic_models.py `ReorderExercise`. -/
structure ReorderExercise where
  id : String
  source_ids : List String
  difficulty : ℚ
  prompt : String
  items : List String
  correct_order : List Int
  metadata : List (String × String)

/-- Python list indexing `l[i]`: negative indices count from the end;
`none` is an `IndexError`. -/
def pyGet {α : Type} (l : List α) (i : Int) : Option α :=
  if 0 ≤ i then l.get? i.toNat
  else if 0 ≤ (l.length : Int) + i then l.get? ((l.length : Int) + i).toNat
  else none

/-- A Python list comprehension of indexings: the first `IndexError`
aborts. -/
def pyGetSeq {α : Type} (l : List α) : List Int → Option (List α)
  | [] => some []
  | i :: is =>
      match pyGet l i with
      | none => none
      | some x =>
          match pyGetSeq l is with
          | none => none
          | some xs => some (x :: xs)

/-- Token accumulator for `splitWs`: tokens are maximal non-whitespace
runs. -/
def splitWsGo : List Char → List Char → List String
  | [], acc => if acc.isEmpty then [] else [String.mk acc.reverse]
  | c :: cs, acc =>
      if c.isWhitespace then
        if acc.isEmpty then splitWsGo cs []
        else String.mk acc.reverse :: splitWsGo cs []
      else splitWsGo cs (c :: acc)

/-- Python `str.split()` with no argument: split on whitespace runs,
dropping leading/trailing whitespace and empty tokens. -/
def splitWs (s : String) : List String :=
  splitWsGo s.toList []

/-- The digit tail of Python `int()` after the first digit: digits with
single underscores allowed between digits. -/
def pyDigitsGo : List Char → Nat → Option Nat
  | [], acc => some acc
  | c :: cs, acc =>
      if c.isDigit then pyDigitsGo cs (acc * 10 + (c.toNat - 48))
      else if c = '_' then
        match cs with
        | [] => none
        | d :: cs2 =>
            if d.isDigit then pyDigitsGo cs2 (acc * 10 + (d.toNat - 48))
            else none
      else none

/-- The digit part of Python `int()`: a nonempty digit string (with single
underscores between digits). -/
def pyDigitsStart : List Char → Option Nat
  | [] => none
  | c :: cs => if c.isDigit then pyDigitsGo cs (c.toNat - 48) else none

/-- Python `int(token)` on a whitespace-free token: optional sign, then a
digit part. -/
def pyInt? (s : String) : Option Int :=
  match s.toList with
  | [] => none
  | '+' :: rest => (pyDigitsStart rest).map (fun n => (n : Int))
  | '-' :: rest => (pyDigitsStart rest).map (fun n => -(n : Int))
  | cs => (pyDigitsStart cs).map (fun n => (n : Int))

/-- `[int(x) for x in user_input.split()]`: the first `ValueError` aborts. -/
def parseOrder : List String → Option (List Int)
  | [] => some []
  | t :: ts =>
      match pyInt? t with
      | none => none
      | some i =>
          match parseOrder ts with
          | none => none
          | some is => some (i :: is)

/-- `[self.exercise.items[i] for i in self.exercise.correct_order]` —
computed OUTSIDE the try block of `check_answer`, so a failure here is an
uncaught `IndexError`. -/
def reorderCorrectSequence (ex : ReorderExercise) : Option (List String) :=
  pyGetSeq ex.items ex.correct_order

/-- The try-block of `ReorderHandler.check_answer`: parse the 1-based
order, index the displayed list Python-style, compare the concatenations;
`ValueError` / `IndexError` yield `false`. -/
def reorderIsCorrect (shuffled_items : List String) (user_input : String)
    (correct_answer : String) : Bool :=
  match parseOrder (splitWs user_input) with
  | none => false
  | some user_order =>
      match pyGetSeq shuffled_items (user_order.map (fun i => i - 1)) with
      | none => false
      | some user_seq => String.join user_seq == correct_answer

/-- src/exercises/generic_handlers.py `ReorderHandler.check_answer` against
an explicitly passed displayed list (the `context` argument / stored shuffle
state). -/
def reorderCheckAnswer (ex : ReorderExercise) (shuffled_items : List String)
    (user_input : String) : Except Unit (Bool × String) :=
  match reorderCorrectSequence ex with
  | none => Except.error ()
  | some cseq =>
      Except.ok
        (reorderIsCorrect shuffled_items user_input (String.join cseq),
          String.join cseq)

/-- src/exercises/generic_handlers.py
`ReorderHandler.process_user_input_with_input` with the stored shuffle
indices passed explicitly. -/
def reorderProcessUserInput (ex : ReorderExercise)
    (shuffledIndices : List Int) (user_input : String) :
    Except Unit (Bool × Option Bool × String) :=
  match pyGetSeq ex.items shuffledIndices with
  | none => Except.error ()
  | some shuffled_items =>
      if user_input.toLower == "q" then Except.ok (false, none, "")
      else
        match parseOrder (splitWs user_input) with
        | none => Except.ok (true, some false, "")
        | some _ =>
            match reorderCheckAnswer ex shuffled_items user_input with
            | Except.error _ => Except.error ()
            | Except.ok (b, ca) => Except.ok (false, some b, ca)

/-- Claim C10 (amended): for every reorder exercise whose canonical order
indexes its items without error (as generator output does),
`check_answer` returns a result — never an uncaught exception — for every
input string, and it judges the input correct exactly when the input parses
as whitespace-separated Python integers whose `i - 1` indexings of the
displayed list (with Python's negative indexing, so `0` and negative
entries are legal) all succeed and whose concatenation equals the
concatenation of the canonical sequence; `process_user_input_with_input`
delegates to the same check for parsable non-quit input. -/
theorem reorder_check_answer_characterisation (ex : ReorderExercise)
    (shuffled : List String) (input : String) (cseq : List String)
    (hcs : reorderCorrectSequence ex = some cseq) :
    (∃ b, reorderCheckAnswer ex shuffled input =
        Except.ok (b, String.join cseq) ∧
      (b = true ↔ ∃ order useq,
        parseOrder (splitWs input) = some order ∧
        pyGetSeq shuffled (order.map (fun i => i - 1)) = some useq ∧
        String.join useq = String.join cseq)) ∧
    (∀ (idxs : List Int) (sh : List String),
      pyGetSeq ex.items idxs = some sh →
      (input.toLower == "q") = false →
      parseOrder (splitWs input) ≠ none →
      reorderProcessUserInput ex idxs input =
        match reorderCheckAnswer ex sh input with
        | Except.error _ => Except.error ()
        | Except.ok (b, ca) => Except.ok (false, some b, ca)) := by
  constructor
  · refine ⟨reorderIsCorrect shuffled input (String.join cseq), ?_, ?_⟩
    · rw [reorderCheckAnswer, hcs]
    · rw [reorderIsCorrect]
      split
      · rename_i heq
        simp only [Bool.false_eq_true, false_iff]
        rintro ⟨order, useq, ho, _⟩
        rw [heq] at ho
        exact nomatch ho
      · rename_i user_order heq
        split
        · rename_i hps
          simp only [Bool.false_eq_true, false_iff]
          rintro ⟨order, useq, ho, hs, _⟩
          rw [heq] at ho
          cases Option.some.inj ho
          rw [hps] at hs
          exact nomatch hs
        · rename_i user_seq hps
          simp only [beq_iff_eq]
          constructor
          · intro hj
            exact ⟨user_order, user_seq, heq, hps, hj⟩
          · rintro ⟨order, useq, ho, hs, hj⟩
            rw [heq] at ho
            cases Option.some.inj ho
            rw [hps] at hs
            cases Option.some.inj hs
            exact hj
  · intro idxs sh hsh hq hpo
    cases hp : parseOrder (splitWs input) with
    | none => exact absurd hp hpo
    | some order =>
      simp only [reorderProcessUserInput, hsh, hq, reorderCheckAnswer, hcs, hp,
        Bool.false_eq_true, if_false]

/-- A three-item reorder exercise as the generator produces it, displayed
with the shuffle `[1, 2, 0]` (shown as `b, c, a`). -/
def c10Exercise : ReorderExercise :=
  { id := "r1", source_ids := ["k1"], difficulty := 3/10,
    prompt := "Translate", items := ["a", "b", "c"],
    correct_order := [0, 1, 2], metadata := [] }

/-- Claim C10 counterexample: on the displayed list `["b", "c", "a"]` the
input `"0 1 2"` — which contains `0`, never a 1-based position — is judged
CORRECT, because Python's `shuffled_items[0 - 1]` reads the last displayed
item; the legitimate `"3 1 2"` is also correct and an unparsable input is
incorrect without raising. -/
theorem reorder_check_answer_zero_counterexample :
    reorderCheckAnswer c10Exercise ["b", "c", "a"] "0 1 2" =
      Except.ok (true, "abc") ∧
    reorderCheckAnswer c10Exercise ["b", "c", "a"] "3 1 2" =
      Except.ok (true, "abc") ∧
    reorderCheckAnswer c10Exercise ["b", "c", "a"] "not a number" =
      Except.ok (false, "abc") :=
  ⟨rfl, rfl, rfl⟩

/-- Witness for C10 at concrete inputs. -/
theorem reorder_check_answer_characterisation_witness :
    reorderCheckAnswer c10Exercise ["b", "c", "a"] "3 1 2" =
      Except.ok (true, "abc") := by
  obtain ⟨⟨b, hb, hiff⟩, _⟩ := reorder_check_answer_characterisation
    c10Exercise ["b", "c", "a"] "3 1 2" ["a", "b", "c"] rfl
  have hbt : b = true := hiff.mpr ⟨[3, 1, 2], ["a", "b", "c"], rfl, rfl, rfl⟩
  rw [hbt] at hb
  exact hb

end ChineseTutor
